import Mathlib

/-!
Shallow embedding of the easy_cache memoization layer
(src/easy_cache/core.py) and proofs about its specified behaviour.

Modelling conventions:
* Python values that can be stored in the cache backend are modelled by
  the inductive type CVal: integers (timestamps), strings (opaque plain
  values rendered by their text form) and dictionaries.
* Python dictionaries are modelled by CDict, an association structure in
  which assignment (CDict.set) overwrites the entry of an existing key in
  place, as Python dict assignment does.
* The cache backend is a key-value store; its get/set/delete/get_many/
  set_many operations are modelled directly on a CDict store.  Expiry
  timeouts are delegated to the backend by the source and are therefore
  accepted but not interpreted by the model.
* get_timestamp() (microseconds since the epoch) is modelled by an
  arbitrary clock function together with a call counter: the n-th call of
  get_timestamp returns clock n.  No monotonicity is assumed.
* force_text applied to values that are already text is the identity in
  the source; call arguments are modelled by their text form (String).
* hash_dict builds hash(frozenset(d.items())); two such hashes are equal
  exactly when the item sets are equal (hashing is treated as injective),
  so the model compares the item sets directly (hash_dict_eq).
-/

namespace EasyCache

mutual
/-- Python values storable in the cache backend: integers (tag
timestamps), text values, and dictionaries such as the tagged entry
mapping with fields value and tags written by TaggedCacheProxy. -/
inductive CVal where
  | num : Nat → CVal
  | str : String → CVal
  | dict : CDict → CVal
deriving DecidableEq, Repr

/-- A Python dictionary with String keys and CVal values. -/
inductive CDict where
  | nil : CDict
  | cons : String → CVal → CDict → CDict
deriving DecidableEq, Repr
end

namespace CDict

/-- Python d.get(k) / d[k]: the value stored under key k, if any. -/
def lookup : CDict → String → Option CVal
  | .nil, _ => none
  | .cons k v rest, key => if k = key then some v else rest.lookup key

/-- Python d[k] = v: overwrite the existing entry for k in place, or
append a new entry. -/
def set : CDict → String → CVal → CDict
  | .nil, key, val => .cons key val .nil
  | .cons k v rest, key, val =>
      if k = key then .cons key val rest else .cons k v (rest.set key val)

/-- Python not d (dict truthiness): true when the dict has no entry. -/
def isEmpty : CDict → Bool
  | .nil => true
  | .cons _ _ _ => false

/-- Python list(d) / d.keys(): the keys in entry order. -/
def keys : CDict → List String
  | .nil => []
  | .cons k _ rest => k :: rest.keys

/-- Python len(d). -/
def size : CDict → Nat
  | .nil => 0
  | .cons _ _ rest => rest.size + 1

/-- Whether the pair (k, v) occurs among the items of the dict; used to
model membership in frozenset(d.items()). -/
def hasPair : CDict → String → CVal → Bool
  | .nil, _, _ => false
  | .cons k v rest, key, val => (k = key && v = val) || rest.hasPair key val

/-- Whether every item of the dict satisfies p. -/
def allPairs : CDict → (String → CVal → Bool) → Bool
  | .nil, _ => true
  | .cons k v rest, p => p k v && rest.allPairs p

/-- Python d.update(e): assign every item of e into d, in order. -/
def update : CDict → CDict → CDict
  | d, .nil => d
  | d, .cons k v rest => (d.set k v).update rest

/-- Python del d[k] (for every occurrence of the key). -/
def removeKey : CDict → String → CDict
  | .nil, _ => .nil
  | .cons k v rest, key =>
      if k = key then rest.removeKey key else .cons k v (rest.removeKey key)

/-- Each key occurs at most once; holds for every dict built with set. -/
def nodupKeys : CDict → Bool
  | .nil => true
  | .cons k _ rest => (rest.lookup k).isNone && rest.nodupKeys

end CDict

/-- Python truthiness of a stored value: 0, the empty string and the
empty dict are falsy. -/
def CVal.falsy : CVal → Bool
  | .num n => n == 0
  | .str s => s == ""
  | .dict d => d.isEmpty

/-- hash_dict(a) == hash_dict(b) in the source compares
hash(frozenset(a.items())) with hash(frozenset(b.items())); the model
compares the item sets themselves (hashing treated as injective). -/
def hash_dict_eq (a b : CDict) : Bool :=
  a.allPairs (fun k v => b.hasPair k v) && b.allPairs (fun k v => a.hasPair k v)

/-- An argument of create_cache_key: either a text value or a sequence
(list/tuple) of text values.  force_text on a text value is the
identity; on a sequence it yields the Python repr of the sequence. -/
inductive Part where
  | str : String → Part
  | seq : List String → Part
deriving DecidableEq, Repr

/-- force_text of one create_cache_key argument.  The text form of a
sequence is its bracketed rendering (quoting of the elements, a detail of
the Python repr, is not exercised by any specified behaviour and is left
out). -/
def Part.force_text : Part → String
  | .str s => s
  | .seq xs => "[" ++ String.intercalate ", " xs ++ "]"

/-- create_cache_key(*parts) (core.py lines 144-151): if there is exactly
one argument and it is a sequence rather than text, its elements become
the parts; the parts are then joined, as text, by the configured
delimiter. -/
def create_cache_key (delim : String) (parts : List Part) : String :=
  match parts with
  | [Part.str s] => String.intercalate delim [s]
  | [Part.seq xs] => String.intercalate delim xs
  | _ => String.intercalate delim (parts.map Part.force_text)

/-- create_tag_cache_key(*parts) (core.py lines 154-155): create_cache_key
with the tag namespace prefix prepended as the first part. -/
def create_tag_cache_key (tagPfx delim : String) (parts : List Part) : String :=
  create_cache_key delim (Part.str tagPfx :: parts)

/-- The namespaced tag key of a single tag name. -/
def tag_key_of (tagPfx delim : String) (t : String) : String :=
  create_tag_cache_key tagPfx delim [Part.str t]

/-- An argument passed to the delimiter / tag-prefix setters: text, or a
non-text Python value (an integer, or None). -/
inductive SetterArg where
  | str : String → SetterArg
  | num : Nat → SetterArg
  | pyNone : SetterArg
deriving DecidableEq, Repr

/-- set_cache_key_delimiter (core.py lines 103-108): requires a text
argument; a non-text argument raises TypeError before the global is
assigned.  Returns the new delimiter value on success. -/
def set_cache_key_delimiter (v : SetterArg) : Except String String :=
  match v with
  | .str s => .ok s
  | _ => .error "Invalid delimiter type, string required"

/-- set_tag_key_prefix (core.py lines 111-116): same validation for the
tag namespace prefix. -/
def set_tag_key_prefix (v : SetterArg) : Except String String :=
  match v with
  | .str s => .ok s
  | _ => .error "Invalid tag prefix type, string required"

/-- The delimiter global after a call of set_cache_key_delimiter: the new
value on success; unchanged when the setter raised. -/
def delimiter_after (current : String) (v : SetterArg) : String :=
  match set_cache_key_delimiter v with
  | .ok d => d
  | .error _ => current

/-- The tag-prefix global after a call of set_tag_key_prefix. -/
def tag_prefix_after (current : String) (v : SetterArg) : String :=
  match set_tag_key_prefix v with
  | .ok p => p
  | .error _ => current

/-- The externally supplied key-value cache backend (section 6 of the
spec): get / set / delete / get_many / set_many over a key-value store.
Expiry is internal to the backend and not modelled, so set accepts and
ignores its optional timeout. -/
structure Backend where
  store : CDict
deriving DecidableEq, Repr

namespace Backend

/-- backend.get(key, default): some value on a hit, none on a miss (call
sites supply their own default or the NOT_FOUND sentinel for none). -/
def get (b : Backend) (key : String) : Option CVal :=
  b.store.lookup key

/-- backend.set(key, value[, timeout]): store a value; the optional
expiry timeout is backend-internal and ignored by the model. -/
def set (b : Backend) (key : String) (value : CVal) (_timeout : Option Nat) : Backend :=
  ⟨b.store.set key value⟩

/-- backend.delete(key). -/
def delete (b : Backend) (key : String) : Backend :=
  ⟨b.store.removeKey key⟩

/-- backend.get_many(keys): a mapping holding each requested key that is
present, with its stored value; absent keys are omitted. -/
def get_many (b : Backend) : List String → CDict
  | [] => .nil
  | k :: rest =>
      let d := b.get_many rest
      match b.get k with
      | some v => d.set k v
      | none => d

/-- backend.set_many(mapping[, timeout]): store every pair of the
mapping. -/
def set_many (b : Backend) (m : CDict) (timeout : Option Nat) : Backend :=
  match m with
  | .nil => b
  | .cons k v rest => Backend.set_many (b.set k v timeout) rest timeout

end Backend

/-- inspect.getargspec of the wrapped function: declared positional
parameter names, and the tuple of default values (None when the function
declares no default, a list aligned with the last parameters otherwise).
Functions with *args / **kwargs are not decorated in any specified
scenario, so those two slots are not modelled. -/
structure ArgSpec where
  args : List String
  defaults : Option (List String)
deriving DecidableEq, Repr

/-- dict(a) updated with b (Python dict.update): entries of b override
entries of a with the same key. -/
def kwUpdate (a b : List (String × String)) : List (String × String) :=
  a.filter (fun p => (b.lookup p.1).isNone) ++ b

/-- inspect.getcallargs(function, *args, **kwargs): the full parameter
name to value binding of one call — positional arguments bound to the
first parameters in order, keyword arguments by name, declared defaults
for the rest; a TypeError for surplus positional arguments, duplicate or
unknown keyword names, or a missing parameter. -/
def getcallargs (sig : ArgSpec) (args : List String)
    (kwargs : List (String × String)) : Except String (List (String × String)) :=
  if args.length > sig.args.length then
    .error "TypeError: too many positional arguments"
  else if kwargs.any (fun p => (sig.args.take args.length).contains p.1) then
    .error "TypeError: got multiple values for argument"
  else if kwargs.any (fun p => !sig.args.contains p.1) then
    .error "TypeError: unexpected keyword argument"
  else
    let ds := sig.defaults.getD []
    let defaultsMap := (sig.args.drop (sig.args.length - ds.length)).zip ds
    let bindRest := (sig.args.drop args.length).mapM (fun p =>
      match kwargs.lookup p with
      | some v => some (p, v)
      | none =>
        match defaultsMap.lookup p with
        | some v => some (p, v)
        | none => none)
    match bindRest with
    | some rest => .ok ((sig.args.zip args) ++ rest)
    | none => .error "TypeError: missing a required argument"

/-- MetaCallable (core.py lines 170-191): the per-invocation snapshot of
positional arguments, keyword arguments merged with unsupplied defaults,
the resolved parameter bindings (call_args) and the return-value slot
(none models the NOT_SET sentinel). -/
structure MetaCallable where
  args : List String
  kwargs : List (String × String)
  returned_value : Option CVal
  call_args : List (String × String)
deriving DecidableEq, Repr

/-- meta.has_returned_value: whether the return slot differs from
NOT_SET. -/
def MetaCallable.has_returned_value (m : MetaCallable) : Bool :=
  m.returned_value.isSome

/-- Configuration of one plain memoizing decorator (class Cached): the
wrapped function is represented by its getargspec and an opaque dotted
identifier (the output of get_function_path, which lives in the
repository module easy_cache/utils.py and is treated as an uninterpreted
string here), plus the timeout (none models the DEFAULT_TIMEOUT
sentinel, i.e. no explicit timeout is passed to the backend), the bound
scope (the recorded instance or class, when accessed as an attribute)
and the process-wide key delimiter in effect.  The cache_key parameter
is None in every specified scenario, so key generation uses the default
derivation algorithm (Cached.create_cache_key). -/
structure Cached where
  sig : ArgSpec
  funcPath : String
  timeout : Option Nat
  scope : Option String
  delim : String
deriving DecidableEq, Repr

namespace Cached

/-- Cached.update_arguments (core.py lines 341-350): prepend the recorded
instance (or class) to the positional arguments. -/
def update_arguments (c : Cached) (args : List String) :
    List String :=
  match c.scope with
  | some s => s :: args
  | none => args

/-- Python list.remove(x): drop the first occurrence; a missing value
(the ValueError branch) leaves the list unchanged. -/
def removeFirst : List String → String → List String
  | [], _ => []
  | x :: rest, s => if x = s then rest else x :: removeFirst rest s

/-- The values of the keyword arguments in keyword-name-sorted order
(for k in sorted(kwargs): append kwargs[k]). -/
def kwargsSortedValues (kwargs : List (String × String)) : List String :=
  (((kwargs.map Prod.fst).insertionSort (fun a b => a ≤ b)).map
    (fun k => (kwargs.lookup k).getD ""))

/-- Cached.create_cache_key (core.py lines 325-339): the default key
derivation — the function-identity prefix, then the positional argument
values with the bound scope removed, then the keyword argument values in
keyword-name-sorted order (without their names), joined by the
delimiter. -/
def create_cache_key (c : Cached) (args : List String)
    (kwargs : List (String × String)) : String :=
  let args := match c.scope with
    | some s => removeFirst args s
    | none => args
  let vals := args ++ kwargsSortedValues kwargs
  EasyCache.create_cache_key c.delim (Part.str c.funcPath :: vals.map Part.str)

/-- Cached.collect_meta (core.py lines 408-431): adjust the arguments for
the bound scope, merge declared defaults that the caller did not pass
into the keyword arguments (arg_spec.defaults[-diff_count:] raises a
TypeError when the function declares no defaults and fewer positional
arguments than parameters were passed), and resolve the full call_args
binding. -/
def collect_meta (c : Cached) (args : List String)
    (kwargs : List (String × String)) : Except String MetaCallable := do
  let args := c.update_arguments args
  let diff_count : Nat := c.sig.args.length - args.length
  let default_kwargs ←
    if diff_count > 0 then
      match c.sig.defaults with
      | none => Except.error "TypeError: NoneType is not subscriptable"
      | some ds =>
          pure (((c.sig.args.drop (c.sig.args.length - diff_count)).zip
            (ds.drop (ds.length - diff_count))))
    else
      pure []
  let merged := kwUpdate default_kwargs kwargs
  let call_args ← getcallargs c.sig args kwargs
  pure { args := args, kwargs := merged, returned_value := none,
         call_args := call_args }

/-- Cached.set_cached_value (core.py lines 369-374): write the returned
value under the key, passing the configured timeout only when it is not
the DEFAULT_TIMEOUT sentinel (the backend model ignores expiry either
way). -/
def set_cached_value (c : Cached) (b : Backend) (cache_key : String)
    (value : CVal) : Backend :=
  b.set cache_key value c.timeout

/-- Cached.__call__ (core.py lines 312-323) for a decorator configured
with cache_key=None, whose key template is therefore the bound default
derivation method (dispatched by _format with the call arguments
unpacked): collect the metadata, build the key, read the backend, and on
a miss execute the wrapped function and write the result through.  The
wrapped function is a value of the model (a pure, possibly failing
function of the metadata arguments).  The result records the value or
propagated error, the backend state after the call, and whether the
wrapped function was invoked. -/
def call (c : Cached) (f : List String → List (String × String) → Except String CVal)
    (args : List String) (kwargs : List (String × String)) (b : Backend) :
    (Except String CVal) × Backend × Bool :=
  match c.collect_meta args kwargs with
  | .error e => (.error e, b, false)
  | .ok meta =>
    let cache_key := c.create_cache_key meta.args meta.kwargs
    match b.get cache_key with
    | some cached_value => (.ok cached_value, b, false)
    | none =>
      match f meta.args meta.kwargs with
      | .error e => (.error e, b, true)
      | .ok value => (.ok value, c.set_cached_value b cache_key value, true)

/-- Cached.invalidate_cache_by_args (core.py lines 436-439): rebuild the
key those arguments produce and delete it from the backend. -/
def invalidate_cache_by_args (c : Cached) (args : List String)
    (kwargs : List (String × String)) (b : Backend) : Except String Backend :=
  match c.collect_meta args kwargs with
  | .error e => .error e
  | .ok meta => .ok (b.delete (c.create_cache_key meta.args meta.kwargs))

end Cached

/-- The character scan of str.format: outside a placeholder (buf = none)
characters are copied; an opening brace starts collecting a placeholder
name; the closing brace substitutes the bound value of the collected
name from call_args.  An unknown name raises a KeyError, an unterminated
placeholder a ValueError. -/
def pyFormatAux (call_args : List (String × String)) :
    List Char → Option (List Char) → Except String String
  | [], none => .ok ""
  | [], some _ => .error "ValueError: unterminated placeholder"
  | c :: rest, none =>
      if c = '\x7b' then pyFormatAux call_args rest (some [])
      else (pyFormatAux call_args rest none).map (String.singleton c ++ ·)
  | c :: rest, some buf =>
      if c = '\x7d' then
        match call_args.lookup (String.mk buf.reverse) with
        | some v => (pyFormatAux call_args rest none).map (v ++ ·)
        | none => .error ("KeyError: " ++ String.mk buf.reverse)
      else pyFormatAux call_args rest (some (c :: buf))

/-- str.format(**call_args) for a template containing named placeholders:
each placeholder is replaced by the bound value of that parameter.  (The
brace-escape syntax of Python format strings is not exercised by any
specified behaviour and is not modelled.) -/
def pyFormat (s : String) (call_args : List (String × String)) :
    Except String String :=
  pyFormatAux call_args s.data none

/-- A key / tag / prefix template as configured on a decorator: a text
template with named placeholders, or a list of such texts (one per tag).
Callable templates are dispatched by signature shape in the source; no
specified behaviour under verification configures one, so they are not
modelled. -/
inductive Template where
  | str : String → Template
  | list : List String → Template
deriving DecidableEq, Repr

/-- Python truthiness of a template value: the empty string and the
empty list/tuple are falsy. -/
def Template.truthy : Template → Bool
  | .str s => !(s == "")
  | .list xs => !xs.isEmpty

/-- The result of Cached._format on a text or list template: one string,
or a list of strings. -/
inductive FmtResult where
  | one : String → FmtResult
  | many : List String → FmtResult
deriving DecidableEq, Repr

/-- Cached._format (core.py lines 386-406) restricted to text and
list templates: a text template is formatted against the resolved
call_args binding; a list template is formatted elementwise. -/
def Cached.format (t : Template) (call_args : List (String × String)) :
    Except String FmtResult :=
  match t with
  | .str s => (pyFormat s call_args).map .one
  | .list xs => (xs.mapM (fun x => pyFormat x call_args)).map .many

/-- to_set inside invalidate_cache_by_tags (core.py lines 509-510): a
single string becomes a one-element set, a collection becomes the set of
its elements.  Sets are represented by duplicate-free lists; only
membership is ever used. -/
def to_set : FmtResult → List String
  | .one s => [s]
  | .many xs => xs.dedup

namespace TaggedCacheProxy

/-- The mapping shape that make_value records under the primary key:
a dict with fields value and tags (value.get writes of core.py lines
220-223). -/
def proxyEntry (value : CVal) (snap : CDict) : CVal :=
  CVal.dict (.cons "value" value (.cons "tags" (CVal.dict snap) .nil))

/-- The loop of make_value (for tag_key in tags, core.py lines 213-216):
each tag key that the bulk read (td) did not return is assigned a fresh
timestamp; every get_timestamp call advances the clock counter. -/
def freshTags (td : CDict) (clock : Nat → Nat) :
    List String → CDict → Nat → CDict × Nat
  | [], d, i => (d, i)
  | tk :: rest, d, i =>
      if (td.lookup tk).isSome then freshTags td clock rest d i
      else freshTags td clock rest (d.set tk (CVal.num (clock i))) (i + 1)

/-- TaggedCacheProxy.make_value (core.py lines 205-225): namespace the
tag names, bulk-read their current values, generate a fresh timestamp
for each tag key the bulk read did not return (one get_timestamp call
per missing tag key, advancing the clock counter), merge read and fresh
values into the tag snapshot, and add the entry key -> {value, tags:
snapshot}.  Returns the mapping to be bulk-written and the advanced
clock counter. -/
def make_value (tagPfx delim : String) (b : Backend) (key : String)
    (value : CVal) (tags : List String) (clock : Nat → Nat) (i : Nat) :
    CDict × Nat :=
  let tagKeys := tags.map (tag_key_of tagPfx delim)
  let tags_dict := b.get_many tagKeys
  let fresh := freshTags tags_dict clock tagKeys .nil i
  let tags_dict := tags_dict.update fresh.1
  let data := fresh.1.set key (proxyEntry value tags_dict)
  (data, fresh.2)

/-- TaggedCacheProxy.set (core.py lines 230-232): build the mapping with
make_value and issue it as one bulk write, forwarding the timeout. -/
def set (tagPfx delim : String) (b : Backend) (key : String) (value : CVal)
    (tags : List String) (timeout : Option Nat) (clock : Nat → Nat) (i : Nat) :
    Backend × Nat :=
  let vd := make_value tagPfx delim b key value tags clock i
  (b.set_many vd.1 timeout, vd.2)

/-- TaggedCacheProxy.get (core.py lines 234-253): read the key with the
NOT_FOUND sentinel; on a miss return the default.  On a hit, value.get
is an attribute lookup, so a stored non-mapping raises an
AttributeError; a mapping with a falsy or absent tags field is returned
unchanged; otherwise the current backend values of the snapshot keys are
bulk-read and their item set compared (hash_dict) with the snapshot — on
a mismatch the entry is stale and the default is returned, else the
stored value field. -/
def get (b : Backend) (key : String) (default : CVal) : Except String CVal :=
  match b.get key with
  | none => .ok default
  | some value =>
    match value with
    | .dict d =>
      match d.lookup "tags" with
      | none => .ok value
      | some tv =>
        if tv.falsy then .ok value
        else
          match tv with
          | .dict tags_dict =>
            let cached_tags_dict := b.get_many tags_dict.keys
            if hash_dict_eq cached_tags_dict tags_dict then
              .ok ((d.lookup "value").getD default)
            else
              .ok default
          | _ => .error "AttributeError: object has no attribute keys"
    | _ => .error "AttributeError: object has no attribute get"

/-- The mapping written by TaggedCacheProxy.invalidate: every namespaced
tag key of the given names, each bound to the one fresh timestamp. -/
def invalidationDict (tagPfx delim : String) (tags : List String) (ts : Nat) :
    CDict :=
  tags.foldl (fun d t => d.set (tag_key_of tagPfx delim t) (CVal.num ts)) .nil

/-- TaggedCacheProxy.invalidate (core.py lines 255-258): one fresh
timestamp (the single get_timestamp call, modelled by ts) bulk-written
to every namespaced tag key of the given names. -/
def invalidate (tagPfx delim : String) (b : Backend) (tags : List String)
    (ts : Nat) : Backend :=
  b.set_many (invalidationDict tagPfx delim tags ts) none

end TaggedCacheProxy

/-- Configuration of one tag/prefix-aware decorator (class TaggedCached):
the plain configuration plus the tag template, the optional prefix
template, and the tag namespace prefix in effect.  The constructor
asserts tags or prefix (see mkChecked). -/
structure TaggedCached extends Cached where
  tags : Template
  prefixTpl : Option Template
  tagPfx : String
deriving DecidableEq, Repr

namespace TaggedCached

/-- Whether the configured prefix template is truthy (self.prefix with
default None). -/
def prefixTruthy (tc : TaggedCached) : Bool :=
  match tc.prefixTpl with
  | some p => p.truthy
  | none => false

/-- TaggedCached.__init__ (core.py lines 464-487): assert tags or prefix
— constructing the decorator with neither a truthy tag template nor a
truthy prefix template fails immediately with an AssertionError
(Invalid Configuration: nothing to invalidate). -/
def mkChecked (base : Cached) (tags : Template) (prefixTpl : Option Template)
    (tagPfx : String) : Except String TaggedCached :=
  if tags.truthy || (match prefixTpl with | some p => p.truthy | none => false) then
    .ok { toCached := base, tags := tags, prefixTpl := prefixTpl, tagPfx := tagPfx }
  else
    .error "AssertionError: assert tags or prefix"

/-- TaggedCached.invalidate_cache_by_tags (core.py lines 502-522): raise
when no tag template is configured; resolve the configured tag template
for the call arguments to the full tag set; with no (or a falsy)
explicit tags argument invalidate that full set, otherwise resolve the
explicit argument the same way and intersect it with the full set when
the full set is non-empty; invalidate the result through the tagged
proxy with one fresh timestamp ts. -/
def invalidate_cache_by_tags (tc : TaggedCached) (explicitTags : Option Template)
    (args : List String) (kwargs : List (String × String)) (b : Backend)
    (ts : Nat) : Except String Backend :=
  if !tc.tags.truthy then
    .error "Tags were not specified, nothing to invalidate"
  else
    match tc.toCached.collect_meta args kwargs with
    | .error e => .error e
    | .ok meta =>
      match Cached.format tc.tags meta.call_args with
      | .error e => .error e
      | .ok fmtAll =>
        let all_tags := to_set fmtAll
        match explicitTags with
        | none =>
            .ok (TaggedCacheProxy.invalidate tc.tagPfx tc.delim b all_tags ts)
        | some e =>
          if !e.truthy then
            .ok (TaggedCacheProxy.invalidate tc.tagPfx tc.delim b all_tags ts)
          else
            match Cached.format e meta.call_args with
            | .error err => .error err
            | .ok fe =>
              let ex := to_set fe
              .ok (TaggedCacheProxy.invalidate tc.tagPfx tc.delim b
                (if !all_tags.isEmpty then ex.filter (all_tags.contains ·) else ex)
                ts)

end TaggedCached

end EasyCache

namespace EasyCache

theorem CDict.ind {P : CDict → Prop} (nil : P .nil)
    (cons : ∀ k v rest, P rest → P (.cons k v rest)) : ∀ d, P d
  | .nil => nil
  | .cons k v rest => cons k v rest (CDict.ind nil cons rest)

theorem CDict.lookup_set (d : CDict) (k q : String) (v : CVal) :
    (d.set k v).lookup q = if k = q then some v else d.lookup q := by
  induction d using CDict.ind with
  | nil => simp [CDict.set, CDict.lookup]
  | cons k0 v0 rest ih =>
      by_cases h : k0 = k
      · subst h
        by_cases h2 : k0 = q
        · subst h2; simp [CDict.set, CDict.lookup]
        · simp [CDict.set, CDict.lookup, h2]
      · by_cases h2 : k0 = q
        · subst h2
          simp [CDict.set, CDict.lookup, h, Ne.symm h]
        · simp [CDict.set, CDict.lookup, h, h2, ih]

theorem CDict.hasPair_set_imp {d : CDict} {k q : String} {v w : CVal}
    (h : (d.set k v).hasPair q w = true) :
    (q = k ∧ w = v) ∨ d.hasPair q w = true := by
  induction d using CDict.ind with
  | nil =>
      simp [CDict.set, CDict.hasPair] at h
      exact Or.inl ⟨h.1.symm, h.2.symm⟩
  | cons k0 v0 rest ih =>
      by_cases hk : k0 = k
      · subst hk
        simp only [CDict.set, if_pos rfl, CDict.hasPair, Bool.or_eq_true,
          Bool.and_eq_true, decide_eq_true_eq] at h
        rcases h with ⟨h1, h2⟩ | h1
        · exact Or.inl ⟨h1.symm, h2.symm⟩
        · exact Or.inr (by simp [CDict.hasPair, Bool.or_eq_true, h1])
      · simp only [CDict.set, if_neg hk, CDict.hasPair, Bool.or_eq_true,
          Bool.and_eq_true, decide_eq_true_eq] at h
        rcases h with ⟨h1, h2⟩ | h1
        · exact Or.inr (by simp [CDict.hasPair, h1, h2])
        · rcases ih h1 with h2 | h2
          · exact Or.inl h2
          · exact Or.inr (by simp [CDict.hasPair, h2])

theorem CDict.allPairs_lookup {d : CDict} {p : String → CVal → Bool}
    {k : String} {v : CVal} (hall : d.allPairs p = true)
    (hl : d.lookup k = some v) : p k v = true := by
  induction d using CDict.ind with
  | nil => simp [CDict.lookup] at hl
  | cons k0 v0 rest ih =>
      simp only [CDict.allPairs, Bool.and_eq_true] at hall
      simp only [CDict.lookup] at hl
      by_cases h : k0 = k
      · subst h
        simp at hl
        subst hl
        exact hall.1
      · simp [h] at hl
        exact ih hall.2 hl

theorem CDict.nodupKeys_set {d : CDict} (k : String) (v : CVal)
    (h : d.nodupKeys = true) : (d.set k v).nodupKeys = true := by
  induction d using CDict.ind with
  | nil => simp [CDict.set, CDict.nodupKeys, CDict.lookup]
  | cons k0 v0 rest ih =>
      simp only [CDict.nodupKeys, Bool.and_eq_true] at h
      by_cases hk : k0 = k
      · subst hk
        simp [CDict.set, CDict.nodupKeys, h.1, h.2]
      · simp only [CDict.set, if_neg hk, CDict.nodupKeys, Bool.and_eq_true]
        refine ⟨?_, ih h.2⟩
        rw [CDict.lookup_set, if_neg (fun hc : k = k0 => hk hc.symm)]
        exact h.1

theorem CDict.update_lookup {e : CDict} (d : CDict) (q : String)
    (he : e.nodupKeys = true) :
    (d.update e).lookup q =
      match e.lookup q with
      | some v => some v
      | none => d.lookup q := by
  induction e using CDict.ind generalizing d with
  | nil => simp [CDict.update, CDict.lookup]
  | cons k0 v0 rest ih =>
      simp only [CDict.nodupKeys, Bool.and_eq_true, Option.isNone_iff_eq_none] at he
      simp only [CDict.update, CDict.lookup]
      rw [ih _ he.2]
      by_cases h : k0 = q
      · subst h
        simp [he.1, CDict.lookup_set]
      · simp only [if_neg h]
        cases hr : rest.lookup q with
        | some v => simp
        | none => simp [CDict.lookup_set, fun hc : k0 = q => h hc]

end EasyCache

namespace EasyCache

theorem CDict.removeKey_lookup (d : CDict) (k q : String) :
    (d.removeKey k).lookup q = if k = q then none else d.lookup q := by
  induction d using CDict.ind with
  | nil => simp [CDict.removeKey, CDict.lookup]
  | cons k0 v0 rest ih =>
      simp only [CDict.removeKey]
      by_cases h : k0 = k
      · subst h
        rw [if_pos rfl, ih]
        by_cases h2 : k0 = q
        · simp [h2]
        · simp [h2, CDict.lookup]
      · rw [if_neg h]
        simp only [CDict.lookup]
        by_cases h2 : k0 = q
        · subst h2
          simp [show ¬(k = k0) from fun hc => h hc.symm]
        · rw [if_neg h2, if_neg h2, ih]

theorem Backend.get_set (b : Backend) (k q : String) (v : CVal) (t : Option Nat) :
    (b.set k v t).get q = if k = q then some v else b.get q := by
  simp [Backend.get, Backend.set, CDict.lookup_set]

theorem Backend.get_delete (b : Backend) (k q : String) :
    (b.delete k).get q = if k = q then none else b.get q := by
  simp [Backend.get, Backend.delete, CDict.removeKey_lookup]

theorem Backend.store_set_many (b : Backend) (m : CDict) (t : Option Nat) :
    (Backend.set_many b m t).store = b.store.update m := by
  induction m using CDict.ind generalizing b with
  | nil => simp [Backend.set_many, CDict.update]
  | cons k0 v0 rest ih =>
      simp [Backend.set_many, CDict.update, ih, Backend.set]

theorem Backend.get_set_many {m : CDict} (b : Backend) (t : Option Nat)
    (q : String) (hm : m.nodupKeys = true) :
    (Backend.set_many b m t).get q =
      match m.lookup q with
      | some v => some v
      | none => b.get q := by
  show (Backend.set_many b m t).store.lookup q = _
  rw [Backend.store_set_many, CDict.update_lookup _ _ hm]
  rfl

theorem Backend.get_many_lookup (b : Backend) (ks : List String) (q : String) :
    (b.get_many ks).lookup q = if q ∈ ks then b.get q else none := by
  induction ks with
  | nil => simp [Backend.get_many, CDict.lookup]
  | cons k rest ih =>
      simp only [Backend.get_many]
      cases hk : b.get k with
      | some v =>
          rw [CDict.lookup_set]
          by_cases h : k = q
          · subst h; simp [hk]
          · rw [if_neg h, ih]
            simp [List.mem_cons, show ¬(q = k) from fun hc => h hc.symm]
      | none =>
          rw [ih]
          by_cases h : q = k
          · subst h; simp [hk]
          · simp [h]

theorem Backend.get_many_hasPair {b : Backend} {ks : List String}
    {q : String} {w : CVal} (h : (b.get_many ks).hasPair q w = true) :
    b.get q = some w := by
  induction ks with
  | nil => simp [Backend.get_many, CDict.hasPair] at h
  | cons k rest ih =>
      simp only [Backend.get_many] at h
      cases hk : b.get k with
      | some v =>
          rw [hk] at h
          rcases CDict.hasPair_set_imp h with ⟨rfl, rfl⟩ | h2
          · exact hk
          · exact ih h2
      | none =>
          rw [hk] at h
          exact ih h

end EasyCache

namespace EasyCache
namespace TaggedCacheProxy

theorem freshTags_counter_le (td : CDict) (clock : Nat → Nat)
    (ks : List String) (d : CDict) (i : Nat) :
    i ≤ (freshTags td clock ks d i).2 := by
  induction ks generalizing d i with
  | nil => simp [freshTags]
  | cons tk rest ih =>
      simp only [freshTags]
      by_cases h : (td.lookup tk).isSome
      · simpa [h] using ih d i
      · simp only [h, if_false]
        exact Nat.le_trans (Nat.le_succ i) (ih _ _)

theorem freshTags_lookup_present {td : CDict} {q : String}
    (hq : (td.lookup q).isSome = true) (clock : Nat → Nat)
    (ks : List String) (d : CDict) (i : Nat) :
    (freshTags td clock ks d i).1.lookup q = d.lookup q := by
  induction ks generalizing d i with
  | nil => simp [freshTags]
  | cons tk rest ih =>
      simp only [freshTags]
      by_cases h : (td.lookup tk).isSome = true
      · rw [if_pos h]
        exact ih d i
      · rw [if_neg h, ih, CDict.lookup_set]
        have hne : ¬(tk = q) := by
          intro hc
          subst hc
          exact h hq
        rw [if_neg hne]

theorem freshTags_lookup_notmem {q : String} {ks : List String}
    (hq : ¬ q ∈ ks) (td : CDict) (clock : Nat → Nat) (d : CDict) (i : Nat) :
    (freshTags td clock ks d i).1.lookup q = d.lookup q := by
  induction ks generalizing d i with
  | nil => simp [freshTags]
  | cons tk rest ih =>
      have hq1 : ¬ q ∈ rest := fun hc => hq (List.mem_cons_of_mem _ hc)
      have hq2 : ¬(tk = q) := fun hc => hq (by simp [hc])
      simp only [freshTags]
      by_cases h : (td.lookup tk).isSome = true
      · rw [if_pos h]
        exact ih hq1 d i
      · rw [if_neg h, ih hq1, CDict.lookup_set, if_neg hq2]

theorem freshTags_lookup_absent {td : CDict} {q : String} {ks : List String}
    (hmem : q ∈ ks) (habs : td.lookup q = none) (clock : Nat → Nat)
    (d : CDict) (i : Nat) :
    ∃ j, i ≤ j ∧ j < (freshTags td clock ks d i).2 ∧
      (freshTags td clock ks d i).1.lookup q = some (.num (clock j)) := by
  induction ks generalizing d i with
  | nil => simp at hmem
  | cons tk rest ih =>
      simp only [freshTags]
      by_cases h : (td.lookup tk).isSome = true
      · have hne : ¬(q = tk) := by
          intro hc
          subst hc
          simp [habs] at h
        have hmem1 : q ∈ rest := by
          rcases List.mem_cons.mp hmem with hc | hc
          · exact absurd hc hne
          · exact hc
        rw [if_pos h]
        exact ih hmem1 d i
      · rw [if_neg h]
        by_cases hmem1 : q ∈ rest
        · rcases ih hmem1 (d.set tk (CVal.num (clock i))) (i + 1) with
            ⟨j, hj1, hj2, hj3⟩
          exact ⟨j, Nat.le_trans (Nat.le_succ i) hj1, hj2, hj3⟩
        · have hqtk : q = tk := by
            rcases List.mem_cons.mp hmem with hc | hc
            · exact hc
            · exact absurd hc hmem1
          subst hqtk
          refine ⟨i, Nat.le_refl i, ?_, ?_⟩
          · exact Nat.lt_of_lt_of_le (Nat.lt_succ_self i)
              (freshTags_counter_le td clock rest _ (i + 1))
          · rw [freshTags_lookup_notmem hmem1, CDict.lookup_set, if_pos rfl]

theorem freshTags_nodup {d : CDict} (hd : d.nodupKeys = true) (td : CDict)
    (clock : Nat → Nat) (ks : List String) (i : Nat) :
    (freshTags td clock ks d i).1.nodupKeys = true := by
  induction ks generalizing d i with
  | nil => simpa [freshTags] using hd
  | cons tk rest ih =>
      simp only [freshTags]
      by_cases h : (td.lookup tk).isSome = true
      · rw [if_pos h]
        exact ih hd i
      · rw [if_neg h]
        exact ih (CDict.nodupKeys_set _ _ hd) (i + 1)

theorem invalidationDict_lookup (tagPfx delim : String) (tags : List String)
    (ts : Nat) (q : String) :
    (invalidationDict tagPfx delim tags ts).lookup q =
      if q ∈ tags.map (tag_key_of tagPfx delim)
      then some (.num ts) else none := by
  suffices h : ∀ acc : CDict,
      (tags.foldl (fun d t => d.set (tag_key_of tagPfx delim t) (CVal.num ts)) acc).lookup q =
        if q ∈ tags.map (tag_key_of tagPfx delim)
        then some (.num ts) else acc.lookup q by
    simpa [invalidationDict, CDict.lookup] using h .nil
  induction tags with
  | nil => intro acc; simp
  | cons t rest ih =>
      intro acc
      simp only [List.foldl_cons, List.map_cons, List.mem_cons]
      rw [ih]
      by_cases hmem : q ∈ rest.map (tag_key_of tagPfx delim)
      · simp [hmem]
      · simp only [hmem, or_false, if_neg hmem]
        rw [CDict.lookup_set]
        by_cases hq : tag_key_of tagPfx delim t = q
        · simp [hq]
        · rw [if_neg hq, if_neg (fun hc : q = tag_key_of tagPfx delim t => hq hc.symm)]
          simp

theorem invalidationDict_nodup (tagPfx delim : String) (tags : List String)
    (ts : Nat) :
    (invalidationDict tagPfx delim tags ts).nodupKeys = true := by
  suffices h : ∀ acc : CDict, acc.nodupKeys = true →
      (tags.foldl (fun d t => d.set (tag_key_of tagPfx delim t) (CVal.num ts)) acc).nodupKeys = true by
    exact h .nil (by simp [CDict.nodupKeys])
  induction tags with
  | nil => intro acc hacc; simpa using hacc
  | cons t rest ih =>
      intro acc hacc
      exact ih _ (CDict.nodupKeys_set _ _ hacc)

theorem invalidate_get (tagPfx delim : String) (b : Backend)
    (tags : List String) (ts : Nat) (q : String) :
    (invalidate tagPfx delim b tags ts).get q =
      if q ∈ tags.map (tag_key_of tagPfx delim)
      then some (.num ts) else b.get q := by
  rw [invalidate, Backend.get_set_many _ _ _ (invalidationDict_nodup _ _ _ _),
    invalidationDict_lookup]
  by_cases h : q ∈ tags.map (tag_key_of tagPfx delim)
  · rw [if_pos h, if_pos h]
  · rw [if_neg h, if_neg h]

end TaggedCacheProxy
end EasyCache

namespace EasyCache
namespace TaggedCacheProxy

theorem proxy_get_entry {b : Backend} {key : String} {v default : CVal}
    {snap : CDict} (hstore : b.get key = some (proxyEntry v snap))
    (hne : snap.isEmpty = false) :
    TaggedCacheProxy.get b key default =
      .ok (if hash_dict_eq (b.get_many snap.keys) snap then v else default) := by
  simp only [TaggedCacheProxy.get, hstore, proxyEntry, CDict.lookup]
  rw [if_neg (show ¬("value" = "tags") by decide)]
  simp only [CVal.falsy, hne]
  by_cases h : hash_dict_eq (b.get_many snap.keys) snap = true
  · simp [hne, h]
  · simp [hne, h]

end TaggedCacheProxy
end EasyCache

namespace EasyCache

/-- Claim C9: create_cache_key joins the text form of each of its
arguments with the configured delimiter (with the default delimiter the
three parts a, b, c yield a:b:c); called with exactly one argument that
is a non-text sequence, that sequence is treated as the list of parts,
so create_cache_key on a two-element sequence equals create_cache_key on
the two elements; a single text argument is one part. -/
theorem claim_C9_create_cache_key :
    (∀ delim a b c0, create_cache_key delim [Part.str a, Part.str b, Part.str c0] =
      a ++ delim ++ b ++ delim ++ c0)
    ∧ create_cache_key ":" [Part.str "a", Part.str "b", Part.str "c"] = "a:b:c"
    ∧ (∀ delim xs, create_cache_key delim [Part.seq xs] =
        create_cache_key delim (xs.map Part.str))
    ∧ (∀ delim s, create_cache_key delim [Part.str s] = s) := by
  refine ⟨?_, by decide, ?_, ?_⟩
  · intro delim a b c0
    show String.intercalate delim [a, b, c0] = _
    simp [String.intercalate, String.intercalate.go, String.append_assoc]
  · intro delim xs
    match xs with
    | [] => rfl
    | [x] => rfl
    | x :: y :: rest =>
        simp [create_cache_key, Part.force_text,
          show Part.force_text ∘ Part.str = id from rfl]
  · intro delim s
    rfl

/-- Claim C10: the delimiter and tag-prefix setters accept exactly text
arguments: on a non-text value they fail with the Invalid Input error
and the configured value is unchanged; on text the new value takes
effect, so after setting the delimiter to the bar character the key
built from x and y is x, bar, y. -/
theorem claim_C10_setters :
    (∀ n, set_cache_key_delimiter (.num n) =
      .error "Invalid delimiter type, string required")
    ∧ set_cache_key_delimiter .pyNone =
        .error "Invalid delimiter type, string required"
    ∧ (∀ cur n, delimiter_after cur (.num n) = cur)
    ∧ (∀ cur, delimiter_after cur .pyNone = cur)
    ∧ (∀ n, set_tag_key_prefix (.num n) =
        .error "Invalid tag prefix type, string required")
    ∧ (∀ cur n, tag_prefix_after cur (.num n) = cur)
    ∧ (∀ cur, tag_prefix_after cur .pyNone = cur)
    ∧ (∀ s, set_cache_key_delimiter (.str s) = .ok s)
    ∧ (∀ s, set_tag_key_prefix (.str s) = .ok s)
    ∧ delimiter_after ":" (.str "|") = "|"
    ∧ create_cache_key (delimiter_after ":" (.str "|"))
        [Part.str "x", Part.str "y"] = "x|y" := by
  refine ⟨fun n => rfl, rfl, fun cur n => rfl, fun cur => rfl, fun n => rfl,
    fun cur n => rfl, fun cur => rfl, fun s => rfl, fun s => rfl, rfl, by decide⟩

/-- Claim C7: constructing the tag/prefix-aware decorator with neither a
tag template nor a prefix template fails immediately at construction
time with the assertion (Invalid Configuration) error, and construction
succeeds exactly when at least one of the two is supplied (truthy). -/
theorem claim_C7_constructor_guard (base : Cached) (tags : Template)
    (prefixTpl : Option Template) (tagPfx : String) :
    (TaggedCached.mkChecked base tags prefixTpl tagPfx =
        .error "AssertionError: assert tags or prefix"
      ↔ (tags.truthy = false ∧
          (match prefixTpl with | some p => p.truthy | none => false) = false))
    ∧ ((∃ tc, TaggedCached.mkChecked base tags prefixTpl tagPfx = .ok tc)
      ↔ (tags.truthy ||
          (match prefixTpl with | some p => p.truthy | none => false)) = true) := by
  unfold TaggedCached.mkChecked
  by_cases h : (tags.truthy ||
      (match prefixTpl with | some p => p.truthy | none => false)) = true
  · rw [if_pos h]
    constructor
    · constructor
      · intro hc
        cases hc
      · intro hc
        rcases Bool.or_eq_true_iff.mp h with h1 | h1
        · rw [hc.1] at h1
          cases h1
        · rw [hc.2] at h1
          cases h1
    · constructor
      · intro _
        exact h
      · intro _
        exact ⟨_, rfl⟩
  · rw [if_neg h]
    constructor
    · constructor
      · intro _
        constructor
        · cases ht : tags.truthy
          · rfl
          · exact absurd (Bool.or_eq_true_iff.mpr (Or.inl ht)) h
        · cases hp : (match prefixTpl with | some p => p.truthy | none => false)
          · rfl
          · exact absurd (Bool.or_eq_true_iff.mpr (Or.inr hp)) h
      · intro _
        rfl
    · constructor
      · intro ⟨tc, hc⟩
        cases hc
      · intro hc
        exact absurd hc h

end EasyCache

namespace EasyCache

/-- Claim C8: the default cache-key derivation appends keyword argument
values in keyword-name-sorted order without their names: any two calls
whose keyword arguments collapse to the same sorted-value sequence
produce equal default keys, and concretely for an unbound foo(x, y) the
calls foo(1, 2) and foo(1, y=2) both derive the key m.foo:1:2. -/
theorem claim_C8_default_key_kwargs :
    (∀ (c : Cached) (args : List String) (kw1 kw2 : List (String × String)),
      Cached.kwargsSortedValues kw1 = Cached.kwargsSortedValues kw2 →
      c.create_cache_key args kw1 = c.create_cache_key args kw2)
    ∧ (Cached.mk ⟨["x", "y"], none⟩ "m.foo" none none ":").create_cache_key
        ["1", "2"] [] = "m.foo:1:2"
    ∧ (Cached.mk ⟨["x", "y"], none⟩ "m.foo" none none ":").create_cache_key
        ["1"] [("y", "2")] = "m.foo:1:2" := by
  refine ⟨?_, by decide, by decide⟩
  intro c args kw1 kw2 h
  unfold Cached.create_cache_key
  rw [h]

/-- Witness for claim C8 at a concrete input. -/
theorem claim_C8_witness :
    Cached.kwargsSortedValues [("a", "2")] = Cached.kwargsSortedValues [("y", "2")]
    ∧ (Cached.mk ⟨["x", "y"], none⟩ "m.foo" none none ":").create_cache_key
        ["1"] [("a", "2")] =
      (Cached.mk ⟨["x", "y"], none⟩ "m.foo" none none ":").create_cache_key
        ["1"] [("y", "2")] :=
  ⟨by decide, claim_C8_default_key_kwargs.1 _ ["1"] _ _ (by decide)⟩

/-- Claim C5: on a cache miss, if the wrapped function raises, the error
propagates to the caller, the wrapped function having been invoked, and
no cache write is performed — the backend after the failed call is the
backend before it. -/
theorem claim_C5_error_no_write (c : Cached)
    (f : List String → List (String × String) → Except String CVal)
    (args : List String) (kwargs : List (String × String)) (b : Backend)
    (m : MetaCallable) (e : String)
    (hmeta : c.collect_meta args kwargs = .ok m)
    (hmiss : b.get (c.create_cache_key m.args m.kwargs) = none)
    (hfail : f m.args m.kwargs = .error e) :
    c.call f args kwargs b = (.error e, b, true) := by
  simp [Cached.call, hmeta, hmiss, hfail]

/-- Witness for claim C5 at a concrete input. -/
theorem claim_C5_witness :
    ((Cached.mk ⟨["x"], none⟩ "m.f" (some 60) none ":").collect_meta ["1"] [] =
      .ok (MetaCallable.mk ["1"] [] none [("x", "1")]))
    ∧ (Backend.mk .nil).get
        ((Cached.mk ⟨["x"], none⟩ "m.f" (some 60) none ":").create_cache_key
          ["1"] []) = none
    ∧ (Cached.mk ⟨["x"], none⟩ "m.f" (some 60) none ":").call
        (fun _ _ => .error "boom") ["1"] [] (Backend.mk .nil) =
        (.error "boom", Backend.mk .nil, true) :=
  ⟨rfl, rfl,
    claim_C5_error_no_write (Cached.mk ⟨["x"], none⟩ "m.f" (some 60) none ":")
      (fun _ _ => .error "boom") ["1"] [] (Backend.mk .nil)
      (MetaCallable.mk ["1"] [] none [("x", "1")]) "boom" rfl rfl rfl⟩

/-- Claim C1: for the plain memoizing decorator over a deterministic
function, two calls with identical arguments execute the wrapped
function exactly once (first call executes and writes through, second
call is a hit that does not execute) and return the same value; after
invalidate_cache_by_args with the same arguments, the next call
executes the wrapped function again. -/
theorem claim_C1_plain_memoization (c : Cached)
    (g : List String → List (String × String) → CVal)
    (args : List String) (kwargs : List (String × String)) (b0 : Backend)
    (m : MetaCallable)
    (hmeta : c.collect_meta args kwargs = .ok m)
    (hmiss : b0.get (c.create_cache_key m.args m.kwargs) = none) :
    let f : List String → List (String × String) → Except String CVal :=
      fun a k => .ok (g a k)
    let key := c.create_cache_key m.args m.kwargs
    let v := g m.args m.kwargs
    let b1 := c.set_cached_value b0 key v
    c.call f args kwargs b0 = (.ok v, b1, true)
    ∧ c.call f args kwargs b1 = (.ok v, b1, false)
    ∧ c.invalidate_cache_by_args args kwargs b1 = .ok (b1.delete key)
    ∧ c.call f args kwargs (b1.delete key) =
        (.ok v, c.set_cached_value (b1.delete key) key v, true) := by
  intro f key v b1
  have hb1get : b1.get key = some v := by
    show (b0.set key v c.timeout).get key = some v
    rw [Backend.get_set, if_pos rfl]
  have hdel : (b1.delete key).get key = none := by
    rw [Backend.get_delete, if_pos rfl]
  refine ⟨?_, ?_, ?_, ?_⟩
  · simp [Cached.call, hmeta, hmiss, f, key, v, b1]
  · simp [Cached.call, hmeta, hb1get, f, key, v, b1]
  · simp [Cached.invalidate_cache_by_args, hmeta, key]
  · simp [Cached.call, hmeta, hdel, f, key, v, b1]

end EasyCache

namespace EasyCache

/-- Claim C6 counterexample: a plain string value written directly to
the backend under the key carries no tags field, yet
TaggedCacheProxy.get raises an AttributeError (value.get on a
non-mapping) instead of returning the stored value unchanged. -/
theorem claim_C6_counterexample :
    TaggedCacheProxy.get (Backend.mk (.cons "k" (.str "s") .nil)) "k" (.str "D") =
      .error "AttributeError: object has no attribute get"
    ∧ TaggedCacheProxy.get (Backend.mk (.cons "k" (.str "s") .nil)) "k" (.str "D") ≠
      .ok (.str "s") :=
  ⟨rfl, fun h => Except.noConfusion h⟩

/-- Claim C6 amended: for every stored mapping value whose tags field is
absent or falsy, TaggedCacheProxy.get returns that stored mapping
unchanged rather than the default or an error; stored non-mapping
values instead raise an AttributeError (see the counterexample). -/
theorem claim_C6_amended (b : Backend) (key : String) (default : CVal)
    (d : CDict) (hstore : b.get key = some (.dict d))
    (htags : ∀ tv, d.lookup "tags" = some tv → tv.falsy = true) :
    TaggedCacheProxy.get b key default = .ok (.dict d) := by
  simp only [TaggedCacheProxy.get, hstore]
  cases hl : d.lookup "tags" with
  | none => simp [hl]
  | some tv => simp [hl, htags tv hl]

/-- Witness for the amended claim C6 at a concrete input. -/
theorem claim_C6_amended_witness :
    ((Backend.mk (.cons "k" (.dict (.cons "a" (.num 1) .nil)) .nil)).get "k" =
      some (.dict (.cons "a" (.num 1) .nil)))
    ∧ TaggedCacheProxy.get
        (Backend.mk (.cons "k" (.dict (.cons "a" (.num 1) .nil)) .nil))
        "k" (.str "D") = .ok (.dict (.cons "a" (.num 1) .nil)) :=
  ⟨rfl, claim_C6_amended _ "k" (.str "D") _ rfl (fun _tv h => nomatch h)⟩

/-- Claim C2: for an entry stored through the tagged proxy with a
non-empty tag snapshot (and a stored value distinguishable from the
supplied default), get returns the stored value exactly when the
backend current values of the snapshot keys form the same unordered
item collection as the snapshot, and returns the default when they do
not; after invalidate bumps one of the snapshot tags to a different
timestamp, get returns the supplied default even though the backend
entry under the primary key is unchanged. -/
theorem claim_C2_tag_snapshot_validity (b : Backend) (key : String)
    (v default : CVal) (snap : CDict) (tagPfx delim : String)
    (names : List String) (t : String) (ts1 ts2 : Nat)
    (hstore : b.get key = some (TaggedCacheProxy.proxyEntry v snap))
    (hne : snap.isEmpty = false) (hvd : v ≠ default)
    (hmem : t ∈ names)
    (hsnap : snap.lookup (tag_key_of tagPfx delim t) = some (.num ts1))
    (hts : ts2 ≠ ts1)
    (hkey : ¬ key ∈ names.map (tag_key_of tagPfx delim)) :
    (TaggedCacheProxy.get b key default = .ok v ↔
      hash_dict_eq (b.get_many snap.keys) snap = true)
    ∧ (hash_dict_eq (b.get_many snap.keys) snap = false →
        TaggedCacheProxy.get b key default = .ok default)
    ∧ (TaggedCacheProxy.invalidate tagPfx delim b names ts2).get key = b.get key
    ∧ TaggedCacheProxy.get
        (TaggedCacheProxy.invalidate tagPfx delim b names ts2) key default =
      .ok default := by
  have hmain := @TaggedCacheProxy.proxy_get_entry b key v default snap hstore hne
  have hb2key : (TaggedCacheProxy.invalidate tagPfx delim b names ts2).get key =
      b.get key := by
    rw [TaggedCacheProxy.invalidate_get, if_neg hkey]
  refine ⟨⟨?_, ?_⟩, ?_, hb2key, ?_⟩
  · intro hg
    by_cases h : hash_dict_eq (b.get_many snap.keys) snap = true
    · exact h
    · rw [hmain, if_neg h] at hg
      exact absurd (Except.ok.inj hg).symm hvd
  · intro h
    rw [hmain, if_pos h]
  · intro h
    rw [hmain, h]
    simp
  · have hstore2 : (TaggedCacheProxy.invalidate tagPfx delim b names ts2).get key =
        some (TaggedCacheProxy.proxyEntry v snap) := by
      rw [hb2key, hstore]
    have hmain2 := @TaggedCacheProxy.proxy_get_entry _ key v default snap hstore2 hne
    have hb2tk : (TaggedCacheProxy.invalidate tagPfx delim b names ts2).get
        (tag_key_of tagPfx delim t) = some (.num ts2) := by
      rw [TaggedCacheProxy.invalidate_get,
        if_pos (List.mem_map_of_mem (tag_key_of tagPfx delim) hmem)]
    have hfalse : ¬ hash_dict_eq
        ((TaggedCacheProxy.invalidate tagPfx delim b names ts2).get_many snap.keys)
        snap = true := by
      intro htrue
      have h2 := (Bool.and_eq_true_iff.mp htrue).2
      have h3 := CDict.allPairs_lookup h2 hsnap
      have h4 := Backend.get_many_hasPair h3
      rw [hb2tk] at h4
      have : ts2 = ts1 := by
        injection h4 with h5
        injection h5
      exact hts this
    rw [hmain2, if_neg hfalse]

/-- Witness for claim C2 at a concrete input. -/
theorem claim_C2_witness :
    ((Backend.mk (.cons "k"
        (TaggedCacheProxy.proxyEntry (.str "v") (.cons "tag:t1" (.num 100) .nil))
        (.cons "tag:t1" (.num 100) .nil))).get "k" =
      some (TaggedCacheProxy.proxyEntry (.str "v") (.cons "tag:t1" (.num 100) .nil)))
    ∧ (CVal.str "v" ≠ CVal.str "D")
    ∧ ("t1" ∈ ["t1"])
    ∧ ((999 : Nat) ≠ 100)
    ∧ TaggedCacheProxy.get
        (Backend.mk (.cons "k"
          (TaggedCacheProxy.proxyEntry (.str "v") (.cons "tag:t1" (.num 100) .nil))
          (.cons "tag:t1" (.num 100) .nil))) "k" (.str "D") = .ok (.str "v")
    ∧ TaggedCacheProxy.get
        (TaggedCacheProxy.invalidate "tag" ":"
          (Backend.mk (.cons "k"
            (TaggedCacheProxy.proxyEntry (.str "v") (.cons "tag:t1" (.num 100) .nil))
            (.cons "tag:t1" (.num 100) .nil))) ["t1"] 999) "k" (.str "D") =
      .ok (.str "D") :=
  have h := claim_C2_tag_snapshot_validity
    (Backend.mk (.cons "k"
      (TaggedCacheProxy.proxyEntry (.str "v") (.cons "tag:t1" (.num 100) .nil))
      (.cons "tag:t1" (.num 100) .nil)))
    "k" (.str "v") (.str "D") (.cons "tag:t1" (.num 100) .nil) "tag" ":"
    ["t1"] "t1" 100 999 rfl rfl (by decide) (by decide) rfl (by decide) (by decide)
  ⟨rfl, by decide, by decide, by decide, h.1.mpr (by decide), h.2.2.2⟩

end EasyCache

namespace EasyCache

/-- Claim C4: with a configured (truthy) tag template,
invalidate_cache_by_tags with no explicit tags argument writes the
fresh timestamp to exactly the namespaced keys of the full tag set
resolved from the template for the call arguments; with an explicit
tags argument and a non-empty resolved full set it writes exactly the
namespaced keys of the intersection of the resolved explicit set with
the full set, so an explicit set disjoint from the resolved set leaves
every backend key unchanged. -/
theorem claim_C4_invalidate_by_tags (tc : TaggedCached) (args : List String)
    (kwargs : List (String × String)) (b : Backend) (ts : Nat)
    (m : MetaCallable) (fmtAll : FmtResult)
    (htags : tc.tags.truthy = true)
    (hmeta : tc.toCached.collect_meta args kwargs = .ok m)
    (hfmt : Cached.format tc.tags m.call_args = .ok fmtAll) :
    (∃ b1, tc.invalidate_cache_by_tags none args kwargs b ts = .ok b1 ∧
      ∀ k, b1.get k =
        if k ∈ (to_set fmtAll).map (tag_key_of tc.tagPfx tc.delim)
        then some (.num ts) else b.get k)
    ∧ (∀ e fe, e.truthy = true → Cached.format e m.call_args = .ok fe →
        (to_set fmtAll).isEmpty = false →
        ∃ b2, tc.invalidate_cache_by_tags (some e) args kwargs b ts = .ok b2 ∧
          ∀ k, b2.get k =
            if k ∈ ((to_set fe).filter ((to_set fmtAll).contains ·)).map
              (tag_key_of tc.tagPfx tc.delim)
            then some (.num ts) else b.get k)
    ∧ (∀ e fe, e.truthy = true → Cached.format e m.call_args = .ok fe →
        (to_set fmtAll).isEmpty = false →
        (∀ x ∈ to_set fe, ¬ x ∈ to_set fmtAll) →
        ∃ b2, tc.invalidate_cache_by_tags (some e) args kwargs b ts = .ok b2 ∧
          ∀ k, b2.get k = b.get k) := by
  have hrun1 : tc.invalidate_cache_by_tags none args kwargs b ts =
      .ok (TaggedCacheProxy.invalidate tc.tagPfx tc.delim b (to_set fmtAll) ts) := by
    unfold TaggedCached.invalidate_cache_by_tags
    simp [htags, hmeta, hfmt]
  have hrun2 : ∀ e fe, e.truthy = true → Cached.format e m.call_args = .ok fe →
      (to_set fmtAll).isEmpty = false →
      tc.invalidate_cache_by_tags (some e) args kwargs b ts =
        .ok (TaggedCacheProxy.invalidate tc.tagPfx tc.delim b
          ((to_set fe).filter ((to_set fmtAll).contains ·)) ts) := by
    intro e fe he hefmt hnonempty
    unfold TaggedCached.invalidate_cache_by_tags
    simp [htags, hmeta, hfmt, he, hefmt, hnonempty]
  refine ⟨⟨_, hrun1, ?_⟩, fun e fe he hefmt hne => ⟨_, hrun2 e fe he hefmt hne, ?_⟩,
    fun e fe he hefmt hne hdisj => ⟨_, hrun2 e fe he hefmt hne, ?_⟩⟩
  · intro k
    exact TaggedCacheProxy.invalidate_get _ _ _ _ _ _
  · intro k
    exact TaggedCacheProxy.invalidate_get _ _ _ _ _ _
  · intro k
    have hfilter : (to_set fe).filter ((to_set fmtAll).contains ·) = [] := by
      rw [List.filter_eq_nil_iff]
      intro a ha
      simpa using hdisj a ha
    rw [TaggedCacheProxy.invalidate_get, hfilter]
    simp

end EasyCache

namespace EasyCache

/-- Witness for claim C4 at a concrete input. -/
theorem claim_C4_witness :
    ((TaggedCached.mk (Cached.mk ⟨["x"], none⟩ "m.f" none none ":")
        (.list ["u-{x}"]) none "tag").tags.truthy = true)
    ∧ ((TaggedCached.mk (Cached.mk ⟨["x"], none⟩ "m.f" none none ":")
        (.list ["u-{x}"]) none "tag").toCached.collect_meta ["1"] [] =
        .ok (MetaCallable.mk ["1"] [] none [("x", "1")]))
    ∧ (Cached.format (.list ["u-{x}"]) [("x", "1")] = .ok (.many ["u-1"]))
    ∧ (∃ b1, (TaggedCached.mk (Cached.mk ⟨["x"], none⟩ "m.f" none none ":")
          (.list ["u-{x}"]) none "tag").invalidate_cache_by_tags none ["1"] []
          (Backend.mk .nil) 55 = .ok b1 ∧
        ∀ k, b1.get k =
          if k ∈ (to_set (.many ["u-1"])).map (tag_key_of "tag" ":")
          then some (.num 55) else (Backend.mk .nil).get k)
    ∧ (∃ b2, (TaggedCached.mk (Cached.mk ⟨["x"], none⟩ "m.f" none none ":")
          (.list ["u-{x}"]) none "tag").invalidate_cache_by_tags
          (some (.list ["zz"])) ["1"] [] (Backend.mk .nil) 55 = .ok b2 ∧
        ∀ k, b2.get k = (Backend.mk .nil).get k) :=
  have h := claim_C4_invalidate_by_tags
    (TaggedCached.mk (Cached.mk ⟨["x"], none⟩ "m.f" none none ":")
      (.list ["u-{x}"]) none "tag") ["1"] [] (Backend.mk .nil) 55
    (MetaCallable.mk ["1"] [] none [("x", "1")]) (.many ["u-1"]) rfl rfl rfl
  ⟨rfl, rfl, rfl, h.1,
    h.2.2 (.list ["zz"]) (.many ["zz"]) rfl rfl rfl (by decide)⟩

end EasyCache

namespace EasyCache

/-- Claim C3: make_value returns a mapping with one fresh-timestamp
top-level entry for each namespaced tag key absent from the bulk read,
no top-level entry for tag keys already present (those keep their
stored values inside the snapshot), plus the entry key to value/tags
where tags merges read and fresh timestamps; concretely, against an
empty backend with tag list t1 the result is exactly the two entries
tag:t1 mapped to the fresh timestamp and k mapped to the record whose
snapshot holds that same timestamp. -/
theorem claim_C3_make_value (tagPfx delim : String) (b : Backend)
    (key : String) (value : CVal) (tags : List String) (clock : Nat → Nat)
    (i : Nat)
    (hkey : ¬ key ∈ tags.map (tag_key_of tagPfx delim)) :
    (∀ t ∈ tags, b.get (tag_key_of tagPfx delim t) = none →
      ∃ j, i ≤ j ∧
        j < (TaggedCacheProxy.make_value tagPfx delim b key value tags clock i).2 ∧
        (TaggedCacheProxy.make_value tagPfx delim b key value tags clock i).1.lookup
          (tag_key_of tagPfx delim t) = some (.num (clock j)))
    ∧ (∀ t ∈ tags, (b.get (tag_key_of tagPfx delim t)).isSome = true →
        (TaggedCacheProxy.make_value tagPfx delim b key value tags clock i).1.lookup
          (tag_key_of tagPfx delim t) = none)
    ∧ (∃ snapd,
        (TaggedCacheProxy.make_value tagPfx delim b key value tags clock i).1.lookup
          key = some (TaggedCacheProxy.proxyEntry value snapd) ∧
        ∀ t ∈ tags,
          snapd.lookup (tag_key_of tagPfx delim t) =
            match b.get (tag_key_of tagPfx delim t) with
            | some w => some w
            | none =>
              (TaggedCacheProxy.make_value tagPfx delim b key value tags clock
                i).1.lookup (tag_key_of tagPfx delim t))
    ∧ (∀ clock2 i2,
        TaggedCacheProxy.make_value "tag" ":" (Backend.mk .nil) "k" (.str "v")
          ["t1"] clock2 i2 =
        (.cons "tag:t1" (.num (clock2 i2))
          (.cons "k" (TaggedCacheProxy.proxyEntry (.str "v")
            (.cons "tag:t1" (.num (clock2 i2)) .nil)) .nil),
         i2 + 1)) := by
  have e1 : (TaggedCacheProxy.make_value tagPfx delim b key value tags clock i).1 =
      (TaggedCacheProxy.freshTags (b.get_many (tags.map (tag_key_of tagPfx delim)))
        clock (tags.map (tag_key_of tagPfx delim)) .nil i).1.set key
        (TaggedCacheProxy.proxyEntry value
          ((b.get_many (tags.map (tag_key_of tagPfx delim))).update
            (TaggedCacheProxy.freshTags
              (b.get_many (tags.map (tag_key_of tagPfx delim))) clock
              (tags.map (tag_key_of tagPfx delim)) .nil i).1)) := rfl
  have e2 : (TaggedCacheProxy.make_value tagPfx delim b key value tags clock i).2 =
      (TaggedCacheProxy.freshTags (b.get_many (tags.map (tag_key_of tagPfx delim)))
        clock (tags.map (tag_key_of tagPfx delim)) .nil i).2 := rfl
  have hkeyne : ∀ t ∈ tags, ¬ key = tag_key_of tagPfx delim t := by
    intro t ht hc
    exact hkey (hc ▸ List.mem_map_of_mem (tag_key_of tagPfx delim) ht)
  have hlookup_td : ∀ t ∈ tags,
      (b.get_many (tags.map (tag_key_of tagPfx delim))).lookup
        (tag_key_of tagPfx delim t) = b.get (tag_key_of tagPfx delim t) := by
    intro t ht
    rw [Backend.get_many_lookup,
      if_pos (List.mem_map_of_mem (tag_key_of tagPfx delim) ht)]
  refine ⟨?_, ?_, ?_, ?_⟩
  · intro t ht habs
    rw [e1, e2, CDict.lookup_set, if_neg (hkeyne t ht)]
    exact TaggedCacheProxy.freshTags_lookup_absent
      (List.mem_map_of_mem (tag_key_of tagPfx delim) ht)
      ((hlookup_td t ht).trans habs) clock .nil i
  · intro t ht hpres
    rw [e1, CDict.lookup_set, if_neg (hkeyne t ht),
      TaggedCacheProxy.freshTags_lookup_present
        (by rw [hlookup_td t ht]; exact hpres)]
    rfl
  · refine ⟨(b.get_many (tags.map (tag_key_of tagPfx delim))).update
      (TaggedCacheProxy.freshTags (b.get_many (tags.map (tag_key_of tagPfx delim)))
        clock (tags.map (tag_key_of tagPfx delim)) .nil i).1, ?_, ?_⟩
    · rw [e1, CDict.lookup_set, if_pos rfl]
    · intro t ht
      rw [CDict.update_lookup _ _
        (@TaggedCacheProxy.freshTags_nodup CDict.nil rfl
          (b.get_many (tags.map (tag_key_of tagPfx delim))) clock
          (tags.map (tag_key_of tagPfx delim)) i)]
      cases hget : b.get (tag_key_of tagPfx delim t) with
      | some w =>
          rw [TaggedCacheProxy.freshTags_lookup_present
            (by rw [hlookup_td t ht, hget]; rfl)]
          simp [CDict.lookup, hlookup_td t ht, hget]
      | none =>
          rw [e1, CDict.lookup_set, if_neg (hkeyne t ht)]
          cases hf : (TaggedCacheProxy.freshTags
              (b.get_many (tags.map (tag_key_of tagPfx delim))) clock
              (tags.map (tag_key_of tagPfx delim)) .nil i).1.lookup
              (tag_key_of tagPfx delim t) with
          | some fv => rfl
          | none =>
              rw [hlookup_td t ht, hget]
  · intro clock2 i2
    rfl

end EasyCache

namespace EasyCache

/-- Witness for claim C3 at a concrete input. -/
theorem claim_C3_witness :
    (¬ "k" ∈ ["t1"].map (tag_key_of "tag" ":"))
    ∧ TaggedCacheProxy.make_value "tag" ":" (Backend.mk .nil) "k" (.str "v")
        ["t1"] (fun n => 100 + n) 0 =
      (.cons "tag:t1" (.num 100)
        (.cons "k" (TaggedCacheProxy.proxyEntry (.str "v")
          (.cons "tag:t1" (.num 100) .nil)) .nil), 1) :=
  ⟨by decide,
    (claim_C3_make_value "tag" ":" (Backend.mk .nil) "k" (.str "v") ["t1"]
      (fun n => 100 + n) 0 (by decide)).2.2.2 (fun n => 100 + n) 0⟩

/-- Witness for claim C1 at a concrete input. -/
theorem claim_C1_witness :
    ((Cached.mk ⟨["x"], none⟩ "m.f" (some 60) none ":").collect_meta ["1"] [] =
      .ok (MetaCallable.mk ["1"] [] none [("x", "1")]))
    ∧ ((Backend.mk .nil).get
        ((Cached.mk ⟨["x"], none⟩ "m.f" (some 60) none ":").create_cache_key
          ["1"] []) = none)
    ∧ ((Cached.mk ⟨["x"], none⟩ "m.f" (some 60) none ":").call
        (fun a _ => .ok (.str (String.intercalate "," a))) ["1"] []
        (Backend.mk .nil) =
        (.ok (.str "1"), Backend.mk (.cons "m.f:1" (.str "1") .nil), true))
    ∧ ((Cached.mk ⟨["x"], none⟩ "m.f" (some 60) none ":").call
        (fun a _ => .ok (.str (String.intercalate "," a))) ["1"] []
        (Backend.mk (.cons "m.f:1" (.str "1") .nil)) =
        (.ok (.str "1"), Backend.mk (.cons "m.f:1" (.str "1") .nil), false))
    ∧ ((Cached.mk ⟨["x"], none⟩ "m.f" (some 60) none ":").invalidate_cache_by_args
        ["1"] [] (Backend.mk (.cons "m.f:1" (.str "1") .nil)) =
        .ok (Backend.mk .nil))
    ∧ ((Cached.mk ⟨["x"], none⟩ "m.f" (some 60) none ":").call
        (fun a _ => .ok (.str (String.intercalate "," a))) ["1"] []
        (Backend.mk .nil)).2.2 = true :=
  have h := claim_C1_plain_memoization
    (Cached.mk ⟨["x"], none⟩ "m.f" (some 60) none ":")
    (fun a _ => .str (String.intercalate "," a)) ["1"] [] (Backend.mk .nil)
    (MetaCallable.mk ["1"] [] none [("x", "1")]) rfl rfl
  ⟨rfl, rfl, h.1, h.2.1, h.2.2.1, by rw [h.1]⟩

end EasyCache
